import Mathlib

/-!
Shallow embedding of the block-parallel stitching engine of the
`cluster_tools` repository, together with proofs about the claims of its
specification.

The embedding covers:
* `cluster_tools/multicut/sub_solutions.py` — global ID unification
  (`_read_subresults`, `sub_solutions` write phase);
* `cluster_tools/inference/multiscale_inference.py` — halo geometry
  (`_load_input`) and the per-block five-stage pipeline (`_run_inference`);
* `cluster_tools/inference/frameworks.py` — `PytorchPredicter.__call__`,
  `crop`, `normalize`, `normalize01`, `preprocess_torch`;
* `cluster_tools/postprocess/background_size_filter.py` — `apply_block`.

Python integers are modelled as `Nat` (label ids, which are unsigned in the
code) or `Int` (geometry coordinates, which may go negative); numpy arrays
of labels are modelled as lists of their elements; 3-dimensional volumes
are modelled per dimension where the code itself works per dimension.
-/

namespace ClusterTools

namespace SubSolutions

/-- One stored per-block sub-result of `_read_subresults`
(`sub_solutions.py`): the node ids loaded for the block
(`ndist.loadNodes`) and the per-node result ids of the stored chunk
(`ds_results.read_chunk`).  A block whose chunk is absent is represented by
`none` at the call site. -/
structure SubResult where
  nodes : List Nat
  res : List Nat
deriving Repr, DecidableEq

/-- Maximum of a list of naturals (`numpy.max`; the code only calls it on
nonempty result arrays, where the `0` default is never used). -/
def listMax (l : List Nat) : Nat := l.foldr max 0

/-- Value stored per surviving block by `read_subres`
(`sub_solutions.py` line 168): `int(subres.max()) + 1`. -/
def subresVal (s : SubResult) : Nat := listMax s.res + 1

/-- Right rotation by one, `np.roll(a, 1)` (`sub_solutions.py` line 183). -/
def rollOne (l : List Nat) : List Nat :=
  match l.getLast? with
  | none => []
  | some x => x :: l.dropLast

/-- Replacement of the first entry by `0`, `block_offsets[0] = 0`
(`sub_solutions.py` line 184). -/
def setFirstZero : List Nat → List Nat
  | [] => []
  | _ :: t => 0 :: t

/-- Cumulative sum, `np.cumsum` (`sub_solutions.py` line 185):
`cumsum [a, b, c] = [a, a + b, a + b + c]`. -/
def cumsum (l : List Nat) : List Nat :=
  (l.scanl (· + ·) 0).drop 1

/-- Offset computation of `_read_subresults` (`sub_solutions.py`
lines 183–185): roll the per-block values right by one, force the first
entry to zero and take the cumulative sum. -/
def computeOffsets (vals : List Nat) : List Nat :=
  cumsum (setFirstZero (rollOne vals))

/-- Lookup in a python dict built by a comprehension: the last binding of a
key wins. -/
def dictLookup (d : List (Nat × Nat)) (k : Nat) : Option Nat :=
  (d.reverse.find? (fun p => p.1 == k)).map (·.2)

/-- Embedding of `_read_subresults` (`sub_solutions.py` lines 144–198).
The input is the ordered block list paired with each block's optionally
stored sub-result (`read_subres` returns `None` exactly when the chunk is
absent), plus the optional `initial_node_labeling` (a total map on node
ids, modelling the numpy lookup array).  Returns the filtered block list
and one remap dictionary per surviving block, exactly as the python
function does: blocks with absent results are dropped; per-block offsets
are the rolled cumulative sum of the stored `max + 1` values; offsets are
added to the result ids; the node labeling is applied to the node ids; the
dictionary maps each node id to its result id, except that node id `0` is
mapped to `0`. -/
def readSubresults (blocks : List (Nat × Option SubResult))
    (relabeling : Option (Nat → Nat)) :
    List Nat × List (List (Nat × Nat)) :=
  let kept := blocks.filterMap (fun p => p.2.map (fun s => (p.1, s)))
  let blockList := kept.map (·.1)
  let blockNodes := kept.map (fun p => p.2.nodes)
  let blockRes := kept.map (fun p => p.2.res)
  let blockOffsets := computeOffsets (kept.map (fun p => subresVal p.2))
  let blockRes := List.zipWith (fun bres boff => bres.map (· + boff))
    blockRes blockOffsets
  let blockNodes := match relabeling with
    | some lab => blockNodes.map (fun nodes => nodes.map lab)
    | none => blockNodes
  let blockResults := List.zipWith (fun bnodes bres =>
      List.zipWith (fun nodeId resId =>
        (nodeId, if nodeId ≠ 0 then resId else 0)) bnodes bres)
    blockNodes blockRes
  (blockList, blockResults)

/-- Write phase of `sub_solutions` (`sub_solutions.py` lines 262–269): one
`_write_block_res` call per pair of the zipped filtered block list and
per-block dictionaries; a pair records which block id gets written with
which dictionary. -/
def writePhase (blockList : List Nat)
    (blockResults : List (List (Nat × Nat))) : List (Nat × List (Nat × Nat)) :=
  List.zip blockList blockResults

/-- Concrete instance of the spec's worked example: block 0 stores result
ids with maximum 2 (so the stored value `max + 1` is 3), block 1 has no
stored sub-result, block 2 stores result ids with maximum 4 (stored value
5). -/
def specExampleBlocks : List (Nat × Option SubResult) :=
  [(0, some ⟨[0, 5, 6], [0, 1, 2]⟩),
   (1, none),
   (2, some ⟨[0, 7, 8, 9, 11], [0, 1, 2, 3, 4]⟩)]

/-- Concrete blocks refuting the offsets-as-sum-of-maxima reading: block 0
has maximum local id 3 (stored value 4), block 1 holds a node with result
id 1. -/
def maximaCexBlocks : List (Nat × Option SubResult) :=
  [(0, some ⟨[0, 1, 2, 3], [0, 1, 2, 3]⟩),
   (1, some ⟨[0, 9], [0, 1]⟩)]

end SubSolutions

namespace MultiscaleInference

/-- Integer coordinate vector of a 3-dimensional volume, one entry per
axis, matching the per-dimension zips of `multiscale_inference.py`. -/
@[ext]
structure Vec3 where
  x : Int
  y : Int
  z : Int
deriving Repr, DecidableEq

/-- Componentwise image of a vector. -/
def Vec3.map (f : Int → Int) (v : Vec3) : Vec3 := ⟨f v.x, f v.y, f v.z⟩

/-- Componentwise combination of two vectors (the `zip`s of the source). -/
def Vec3.map2 (f : Int → Int → Int) (u v : Vec3) : Vec3 :=
  ⟨f u.x v.x, f u.y v.y, f u.z v.z⟩

instance : Add Vec3 := ⟨Vec3.map2 (· + ·)⟩

instance : Sub Vec3 := ⟨Vec3.map2 (· - ·)⟩

/-- Componentwise sums unfold to components. -/
@[simp] theorem Vec3.add_def (u v : Vec3) :
    u + v = ⟨u.x + v.x, u.y + v.y, u.z + v.z⟩ := rfl

/-- Componentwise differences unfold to components. -/
@[simp] theorem Vec3.sub_def (u v : Vec3) :
    u - v = ⟨u.x - v.x, u.y - v.y, u.z - v.z⟩ := rfl

/-- Coarse-scale read window of `_load_input`
(`multiscale_inference.py` lines 201–207): offset, block shape and halo are
first divided by the scale factor (python floor division `//`, which for
the positive scale factors of a resolution pyramid is the `Int` division of
this file), then the scale-specific halo is applied: the window is
`[thisOffset - thisHalo - scaleHalo,
  thisOffset + thisBlockShape + thisHalo + scaleHalo)`. -/
def coarseWindow (offset blockShape halo scaleFactor scaleHalo : Vec3) :
    Vec3 × Vec3 :=
  let thisOffset := Vec3.map2 (· / ·) offset scaleFactor
  let thisBlockShape := Vec3.map2 (· / ·) blockShape scaleFactor
  let thisHalo := Vec3.map2 (· / ·) halo scaleFactor
  (thisOffset - thisHalo - scaleHalo,
   thisOffset + thisBlockShape + thisHalo + scaleHalo)

/-- Result of the read-region computation of `_load_input`: the clamped
region actually read from the store and the synthetic padding amounts per
side. -/
@[ext]
structure LoadGeom where
  start : Vec3
  stop : Vec3
  padLeft : Vec3
  padRight : Vec3
deriving Repr, DecidableEq

/-- Embedding of the geometry of `_load_input`
(`multiscale_inference.py` lines 199–231): compute the coarse window, then
clamp it to `[0, shape)` and record per-side padding.  The two `if any`
guards of the source (lines 214–221) are mirrored: when no coordinate is
out of bounds on a side, that side's padding stays `None`, which the
source later replaces by `(0, 0, 0)` (lines 228–229); `abs(start)` equals
`-start` on the negative starts it is applied to. -/
def loadInputGeom (shape offset blockShape halo scaleFactor scaleHalo : Vec3) :
    LoadGeom :=
  let w := coarseWindow offset blockShape halo scaleFactor scaleHalo
  let starts := w.1
  let stops := w.2
  let padLeftOpt : Option Vec3 :=
    if starts.x < 0 ∨ starts.y < 0 ∨ starts.z < 0 then
      some (starts.map (fun s => if s < 0 then -s else 0))
    else none
  let starts :=
    if starts.x < 0 ∨ starts.y < 0 ∨ starts.z < 0 then
      starts.map (fun s => max 0 s)
    else starts
  let padRightOpt : Option Vec3 :=
    if stops.x > shape.x ∨ stops.y > shape.y ∨ stops.z > shape.z then
      some (Vec3.map2 (fun st sp => if st > sp then st - sp else 0) stops shape)
    else none
  let stops :=
    if stops.x > shape.x ∨ stops.y > shape.y ∨ stops.z > shape.z then
      Vec3.map2 (fun st sp => min sp st) stops shape
    else stops
  { start := starts, stop := stops,
    padLeft := padLeftOpt.getD ⟨0, 0, 0⟩,
    padRight := padRightOpt.getD ⟨0, 0, 0⟩ }

/-- Shape of the array `_load_input` returns: the store read `ds[bb]` has
extent `stop - start` per axis, and `np.pad` (line 231) adds the per-side
padding amounts to each axis (when both pads are `None` no padding happens,
which coincides with padding by zero). -/
def loadedShape (g : LoadGeom) : Vec3 :=
  g.padLeft + (g.stop - g.start) + g.padRight

/-- Per-block stages of `_run_inference` (`multiscale_inference.py`
lines 252–346), recorded when the corresponding real work is invoked:
`load` when `_load_inputs` is called, `preprocessStage` when the
preprocessor is applied, `compute` when the predictor is applied, `write`
when the output datasets are written, `mark` when
`fu.log_block_success` runs. -/
inductive Stage
  | load
  | preprocessStage
  | compute
  | write
  | mark
deriving Repr, DecidableEq

/-- Observable outcome of pushing one block through the delayed pipeline
`load_input → preprocess_impl → predict_impl → write_output → log2` of
`_run_inference`. -/
structure BlockRun (W : Type) where
  inputLoaded : Bool
  preprocessInvoked : Bool
  predictInvoked : Bool
  writes : List W
  successLogged : Bool
  failed : Bool
  events : List Stage
deriving Repr, DecidableEq

/-- Mask short-circuit test of `load_input` (`multiscale_inference.py`
lines 258–262): when a mask is configured and `np.sum(bb_mask) == 0`
(no `True` entry in the block's mask region), the block is skipped. -/
def maskedOut (maskRegion : Option (List Bool)) : Bool :=
  match maskRegion with
  | none => false
  | some region => region.count true == 0

/-- Embedding of the per-block pipeline of `_run_inference`
(`multiscale_inference.py` lines 252–346).  Each stage is a fallible
function (an exception raised inside a delayed stage propagates through
`dask.compute`, so every later stage — including the success marker `log2`
— is not executed for that block).  A block whose mask region is entirely
`False` flows `None` through `preprocess_impl`, `predict_impl` and
`write_output`, none of which invoke their real work on `None`, and reaches
`log2`, which records the block-success marker. -/
def runBlock {D W : Type} (maskRegion : Option (List Bool))
    (loadFn : Unit → Except Unit D) (prepFn : D → Except Unit D)
    (predictFn : D → Except Unit D) (writeFn : D → Except Unit (List W)) :
    BlockRun W :=
  if maskedOut maskRegion then
    { inputLoaded := false, preprocessInvoked := false, predictInvoked := false,
      writes := [], successLogged := true, failed := false,
      events := [Stage.mark] }
  else
    match loadFn () with
    | Except.error _ =>
      { inputLoaded := true, preprocessInvoked := false,
        predictInvoked := false, writes := [], successLogged := false,
        failed := true, events := [Stage.load] }
    | Except.ok d =>
      match prepFn d with
      | Except.error _ =>
        { inputLoaded := true, preprocessInvoked := true,
          predictInvoked := false, writes := [], successLogged := false,
          failed := true, events := [Stage.load, Stage.preprocessStage] }
      | Except.ok d2 =>
        match predictFn d2 with
        | Except.error _ =>
          { inputLoaded := true, preprocessInvoked := true,
            predictInvoked := true, writes := [], successLogged := false,
            failed := true,
            events := [Stage.load, Stage.preprocessStage, Stage.compute] }
        | Except.ok d3 =>
          match writeFn d3 with
          | Except.error _ =>
            { inputLoaded := true, preprocessInvoked := true,
              predictInvoked := true, writes := [], successLogged := false,
              failed := true,
              events := [Stage.load, Stage.preprocessStage, Stage.compute,
                         Stage.write] }
          | Except.ok ws =>
            { inputLoaded := true, preprocessInvoked := true,
              predictInvoked := true, writes := ws, successLogged := true,
              failed := false,
              events := [Stage.load, Stage.preprocessStage, Stage.compute,
                         Stage.write, Stage.mark] }

/-- Modelled from the spec: the stage scheduler's completion check lives in
`cluster_tools/cluster_tasks.py`, which is not among the sources; per the
spec, the scheduler "relies only on the presence/absence of a success
marker per (stage, block)" and "any block without a `Success` marker is a
failure" eligible for retry, so a block is satisfied exactly when its
success marker is present. -/
def blockSatisfied {W : Type} (r : BlockRun W) : Bool := r.successLogged

/-- Modelled from the spec: a block is retried exactly when it is not
satisfied (its success marker is absent) — see `blockSatisfied`. -/
def needsRetry {W : Type} (r : BlockRun W) : Bool := !r.successLogged

/-- Concrete all-succeeding load stage used in the concrete pipeline
instances. -/
def okLoad : Unit → Except Unit Nat := fun _ => Except.ok 0

/-- Concrete all-succeeding middle stage used in the concrete pipeline
instances. -/
def okStep : Nat → Except Unit Nat := fun d => Except.ok d

/-- Concrete all-succeeding write stage used in the concrete pipeline
instances. -/
def okWrite : Nat → Except Unit (List Nat) := fun d => Except.ok [d]

end MultiscaleInference

namespace Frameworks

/-- Three-dimensional array of exact rational voxel values (float arrays
are modelled over `ℚ`), as nested lists: planes, rows, entries. -/
abbrev Arr3 := List (List (List ℚ))

/-- Prediction array as produced by `apply_model` after `squeeze`
(`frameworks.py` lines 87–101): either 3-dimensional or 4-dimensional with
a leading channel axis. -/
inductive NArr
  | d3 (a : Arr3)
  | d4 (chans : List Arr3)
deriving Repr, DecidableEq

/-- Slice `l[h : len(l) - h]`, one dimension of the halo crop
(`frameworks.py` line 82: `slice(ha, sh - ha)`). -/
def sliceDim {α : Type} (l : List α) (h : Nat) : List α :=
  (l.drop h).take (l.length - 2 * h)

/-- Halo crop of a 3-dimensional array, one `sliceDim` per axis. -/
def crop3 (a : Arr3) (h : Nat × Nat × Nat) : Arr3 :=
  (sliceDim a h.1).map (fun plane =>
    (sliceDim plane h.2.1).map (fun row => sliceDim row h.2.2))

/-- Embedding of `PytorchPredicter.crop` (`frameworks.py` lines 80–85):
the halo is stripped from the spatial axes; a leading channel axis is kept
whole (`bb = (slice(None),) + bb`). -/
def NArr.crop : NArr → Nat × Nat × Nat → NArr
  | NArr.d3 a, h => NArr.d3 (crop3 a h)
  | NArr.d4 chans, h => NArr.d4 (chans.map (fun c => crop3 c h))

/-- Halo configuration of the predicter (`frameworks.py` lines 60–61):
`has_multiscale_halo` is true exactly when the configured halo is a nested
list, one halo per output scale. -/
inductive HaloSpec
  | flat (h : Nat × Nat × Nat)
  | nested (hs : List (Nat × Nat × Nat))
deriving Repr, DecidableEq

/-- Raw model output (`frameworks.py` lines 93–100): a single tensor or a
list of tensors, already converted to (squeezed) numpy arrays. -/
inductive ModelOut
  | tensor (a : NArr)
  | tensors (l : List NArr)
deriving Repr, DecidableEq

/-- Embedding of the output handling of `PytorchPredicter.__call__`
(`frameworks.py` lines 116–130).  A list output with a nested
(multiscale) halo is cropped elementwise after the length assertion; a
list output with a flat halo is collapsed to its first element
(`out = out[0]`, an `IndexError` — modelled `none` — on an empty list)
which is then halo-cropped; a single array is halo-cropped.  A single
array with a nested halo makes `crop` zip lists into slice bounds, a
python `TypeError`, modelled `none`. -/
def pytorchCall : ModelOut → HaloSpec → Option ModelOut
  | ModelOut.tensors l, HaloSpec.nested hs =>
    if l.length = hs.length then
      some (ModelOut.tensors (List.zipWith NArr.crop l hs))
    else none
  | ModelOut.tensors l, HaloSpec.flat h =>
    match l with
    | [] => none
    | a :: _ => some (ModelOut.tensor (a.crop h))
  | ModelOut.tensor a, HaloSpec.flat h => some (ModelOut.tensor (a.crop h))
  | ModelOut.tensor _, HaloSpec.nested _ => none

/-- Declared output dataset as seen by `write_output`
(`multiscale_inference.py` lines 304–314): whether the dataset has a
leading channel axis (`dso.ndim == 4`), its leading extent, and its
half-open channel range from the channel mapping. -/
structure DsInfo where
  ndim4 : Bool
  shape0 : Nat
  chanStart : Nat
  chanStop : Nat
deriving Repr, DecidableEq

/-- Channel slice `output[chan_start:chan_stop]` of a 4-dimensional
prediction. -/
def sliceChannels (cs ce : Nat) (chans : List Arr3) : List Arr3 :=
  (chans.drop cs).take (ce - cs)

/-- Model of `.squeeze()` on a channel-sliced prediction: a single-channel
slice drops its channel axis; the spatial axes are block-sized in this
pipeline, so only the channel axis can be a unit axis. -/
def squeezeChan : List Arr3 → NArr
  | [a] => NArr.d3 a
  | l => NArr.d4 l

/-- Spatial truncation `output[tuple(slice(0, ash))]` of `write_output`
(`multiscale_inference.py` lines 296–301) for a boundary block whose
actual extent is smaller than the block shape. -/
def takeShape3 (a : Arr3) (s : Nat × Nat × Nat) : Arr3 :=
  (a.take s.1).map (fun plane => (plane.take s.2.1).map (fun row => row.take s.2.2))

/-- Spatial truncation lifted to 3- or 4-dimensional outputs (a leading
channel axis is kept whole). -/
def cropToShape : NArr → Nat × Nat × Nat → NArr
  | NArr.d3 a, s => NArr.d3 (takeShape3 a s)
  | NArr.d4 chans, s => NArr.d4 (chans.map (fun c => takeShape3 c s))

/-- Data written to one output dataset by `write_output`
(`multiscale_inference.py` lines 304–329): check the channel-count asserts
(an `AssertionError` is modelled `none`), slice and squeeze the channel
range for a 4-dimensional output, apply the optional channel accumulation
to a still-4-dimensional slice, and apply the optional `uint8` cast (the
external `_to_uint8` is a parameter). -/
def writeOne (output : NArr) (accumulation : Option (List Arr3 → Arr3))
    (castFn : Option (NArr → NArr)) (ds : DsInfo) : Option NArr :=
  let ok : Bool :=
    if ds.ndim4 = false then
      accumulation.isSome || (ds.chanStop - ds.chanStart == 1)
    else
      (match output with
       | NArr.d4 _ => true
       | NArr.d3 _ => false) && (ds.chanStop - ds.chanStart == ds.shape0)
  if ok = false then none
  else
    let channelOutput := match output with
      | NArr.d4 chans => squeezeChan (sliceChannels ds.chanStart ds.chanStop chans)
      | NArr.d3 a => NArr.d3 a
    let channelOutput := match accumulation, channelOutput with
      | some acc, NArr.d4 chans => NArr.d3 (acc chans)
      | _, co => co
    let channelOutput := match castFn with
      | some c => c channelOutput
      | none => channelOutput
    some channelOutput

/-- Embedding of `write_output` (`multiscale_inference.py` lines 283–331):
a 3-dimensional output asserts a single declared dataset (lines 291–292),
the output is truncated to the block's actual extent when the block is
boundary-clipped (lines 296–301), and then every declared dataset is
served from that same single output array (lines 304–329); the returned
list holds the data written per dataset. -/
def writeOutput (output : NArr) (blockShape actualShape : Nat × Nat × Nat)
    (dss : List DsInfo) (accumulation : Option (List Arr3 → Arr3))
    (castFn : Option (NArr → NArr)) : Option (List NArr) :=
  let ok : Bool := match output with
    | NArr.d3 _ => dss.length == 1
    | NArr.d4 _ => true
  if ok = false then none
  else
    let output := if actualShape ≠ blockShape then cropToShape output actualShape
      else output
    dss.mapM (writeOne output accumulation castFn)

/-- Composition of the predicter call and `write_output`, the path a
prediction takes through the per-block pipeline (`predict_impl` hands the
`__call__` result to `write_output`; a list-valued result would fail at
`output.shape`, modelled `none`). -/
def predictAndWrite (out : ModelOut) (halo : HaloSpec)
    (blockShape actualShape : Nat × Nat × Nat) (dss : List DsInfo)
    (accumulation : Option (List Arr3 → Arr3)) (castFn : Option (NArr → NArr)) :
    Option (List NArr) :=
  match pytorchCall out halo with
  | some (ModelOut.tensor a) =>
    writeOutput a blockShape actualShape dss accumulation castFn
  | some (ModelOut.tensors _) => none
  | none => none

/-- Mean of a list of rationals (`numpy.mean`; on the empty list the code
would produce a `nan` warning, here the `ℚ` convention `0 / 0 = 0`
applies). -/
def listMeanQ (l : List ℚ) : ℚ := l.sum / (l.length : ℚ)

/-- Population variance of a list of rationals, the square of `numpy.std`:
the mean of the squared deviations from the mean. -/
def listVarQ (l : List ℚ) : ℚ := listMeanQ (l.map (fun x => (x - listMeanQ l) ^ 2))

/-- Embedding of `normalize` (`frameworks.py` lines 173–180): when
`filter_zeros` is set the statistics are taken over the non-zero entries
only; an explicitly supplied mean or std takes priority; the affine map
`(data - mean) / (std + eps)` is applied to every entry.  `numpy.sqrt` is
irrational on `ℚ`, so the square root used by `std` is an explicit
parameter `sqrtFn`. -/
def normalize (sqrtFn : ℚ → ℚ) (data : List ℚ) (eps : ℚ)
    (meanOpt stdOpt : Option ℚ) (filterZeros : Bool) : List ℚ :=
  let dataPre := if filterZeros then data.filter (fun v => v ≠ 0) else data
  let mean := match meanOpt with
    | none => listMeanQ dataPre
    | some m => m
  let std := match stdOpt with
    | none => sqrtFn (listVarQ dataPre)
    | some s => s
  data.map (fun x => (x - mean) / (std + eps))

/-- Minimum of a list of rationals (`numpy.min`; nonempty in the code). -/
def listMinQ : List ℚ → ℚ
  | [] => 0
  | x :: t => t.foldl min x

/-- Maximum of a list of rationals (`numpy.max`; nonempty in the code). -/
def listMaxQ : List ℚ → ℚ
  | [] => 0
  | x :: t => t.foldl max x

/-- Embedding of `normalize01` (`frameworks.py` lines 183–186): note the
source divides by `max + eps`, not by the range. -/
def normalize01 (data : List ℚ) (eps : ℚ) : List ℚ :=
  data.map (fun x => (x - listMinQ data) / (listMaxQ data + eps))

/-- Per-block input of the torch preprocessor: a single array or a list of
arrays (one per resolution scale). -/
inductive TorchData
  | arr (d : List ℚ)
  | arrList (ds : List (List ℚ))
deriving Repr, DecidableEq

/-- Numeric cast `data.astype('float32')` (`frameworks.py` lines 189–190),
modelled as the identity on exact rationals. -/
def castF32 (d : List ℚ) : List ℚ := d

/-- Embedding of `preprocess_torch` (`frameworks.py` lines 193–203): cast,
then apply the configured normalizer — zero-mean/unit-variance
(`normalize` with the supplied mean/std and its defaults
`eps = 1/10000`, `filter_zeros = True`) or min-max (`normalize01`) — to
the array or to each array of a list.  The function is pure: it only maps
over its argument. -/
def preprocessTorch (sqrtFn : ℚ → ℚ) (meanOpt stdOpt : Option ℚ)
    (useZeroMeanUnitVariance : Bool) (data : TorchData) : TorchData :=
  let normalizer : List ℚ → List ℚ :=
    if useZeroMeanUnitVariance then
      fun d => normalize sqrtFn d (1 / 10000) meanOpt stdOpt true
    else fun d => normalize01 d (1 / 10000)
  match data with
  | TorchData.arr d => TorchData.arr (normalizer (castF32 d))
  | TorchData.arrList ds => TorchData.arrList (ds.map (fun d => normalizer (castF32 d)))

end Frameworks

namespace BackgroundSizeFilter

/-- Embedding of `apply_block` (`background_size_filter.py`
lines 110–130) on the labels of one block region: returns the data written
to the output region (`none` when nothing is written) and whether the
block-success marker was logged.  Mirrors the source: if `np.sum(labels)`
is zero, log success and return without writing — the labels are a `uint64`
array and `np.sum` keeps the `uint64` dtype, so the sum wraps modulo
`2 ^ 64` (each label itself is below `2 ^ 64`); compute the discard mask by
membership (`np.in1d`); if the mask is empty, write the labels unchanged;
otherwise zero the masked entries and write. -/
def applyBlock (labels : List Nat) (discardIds : List Nat) :
    Option (List Nat) × Bool :=
  if labels.sum % 2 ^ 64 = 0 then (none, true)
  else
    let discardMask := labels.map (fun v => decide (v ∈ discardIds))
    if discardMask.count true = 0 then (some labels, true)
    else (some (List.zipWith (fun v m => if m then 0 else v) labels discardMask),
      true)

end BackgroundSizeFilter

end ClusterTools

-- ### Theorems ###

namespace ClusterTools

namespace SubSolutions

/-- Helper: entry `i` of `scanl (+) a t` is `a` plus the sum of the first
`i` entries of `t`. -/
theorem scanl_add_getD (t : List Nat) (a i : Nat) (h : i ≤ t.length) :
    (t.scanl (· + ·) a).getD i 0 = a + (t.take i).sum := by
  induction t generalizing a i with
  | nil =>
    have : i = 0 := by simpa using h
    subst this
    simp [List.scanl]
  | cons x xs ih =>
    cases i with
    | zero => simp [List.scanl]
    | succ i =>
      have hi : i ≤ xs.length := by simpa using h
      simp only [List.scanl, List.getD_cons_succ, List.take, List.sum_cons]
      rw [ih (a + x) i hi]
      omega

/-- Helper: the offsets produced by lines 183–185 of `sub_solutions.py` are
the left-rotated cumulative sums: entry `i` is the sum of the first `i`
input values. -/
theorem computeOffsets_getD (vals : List Nat) (i : Nat) (h : i < vals.length) :
    (computeOffsets vals).getD i 0 = (vals.take i).sum := by
  unfold computeOffsets rollOne
  cases hL : vals.getLast? with
  | none =>
    have : vals = [] := by simpa using hL
    subst this
    simp at h
  | some x =>
    simp only [setFirstZero, cumsum, List.scanl]
    have hlen : i ≤ vals.dropLast.length := by
      simp only [List.length_dropLast]
      omega
    simp only [List.drop_succ_cons, List.drop_zero, Nat.add_zero]
    rw [scanl_add_getD _ _ _ hlen, List.dropLast_eq_take, List.take_take]
    have : min i (vals.length - 1) = i := by omega
    rw [this]
    omega

/-- Helper: every element of a `zipWith` is the image of some pair of
elements. -/
theorem exists_of_mem_zipWith {α β γ : Type} {f : α → β → γ} :
    ∀ {l₁ : List α} {l₂ : List β} {x : γ}, x ∈ List.zipWith f l₁ l₂ →
    ∃ a b, x = f a b := by
  intro l₁
  induction l₁ with
  | nil => intro l₂ x h; simp at h
  | cons a l ih =>
    intro l₂ x h
    cases l₂ with
    | nil => simp at h
    | cons b l' =>
      rcases List.mem_cons.1 h with h | h
      · exact ⟨a, b, h⟩
      · exact ih h

/-- Helper: in a dictionary whose entries are built by the comprehension of
line 195 of `sub_solutions.py`, any entry with key `0` has value `0`, so a
lookup of key `0` yields `0` whenever the key is present. -/
theorem dict_zero_lookup (bnodes : List Nat) (bres : List Nat) :
    dictLookup (List.zipWith (fun nodeId resId =>
      (nodeId, if nodeId ≠ 0 then resId else 0)) bnodes bres) 0 = none ∨
    dictLookup (List.zipWith (fun nodeId resId =>
      (nodeId, if nodeId ≠ 0 then resId else 0)) bnodes bres) 0 = some 0 := by
  set d := List.zipWith (fun nodeId resId =>
    (nodeId, if nodeId ≠ 0 then resId else 0)) bnodes bres with hd
  unfold dictLookup
  cases hf : d.reverse.find? (fun p => p.1 == 0) with
  | none => left; rfl
  | some p =>
    right
    have hkey : p.1 = 0 := by simpa using List.find?_some hf
    have hmem : p ∈ d := by
      have := List.mem_of_find?_eq_some hf
      simpa using this
    obtain ⟨n, r, hp⟩ := exists_of_mem_zipWith (hd ▸ hmem)
    have hn : n = 0 := by rw [hp] at hkey; exact hkey
    subst hn
    simp only [hp]
    simp

/-- Helper: the block list returned by `_read_subresults` consists exactly
of the blocks whose stored sub-result is present, in order. -/
theorem readSubresults_blockList (blocks : List (Nat × Option SubResult))
    (relabelOpt : Option (Nat → Nat)) :
    (readSubresults blocks relabelOpt).1 =
      (blocks.filter (fun p => p.2.isSome)).map (·.1) := by
  simp only [readSubresults]
  induction blocks with
  | nil => rfl
  | cons p bs ih =>
    cases h : p.2 with
    | none => simpa [List.filterMap_cons, h] using ih
    | some s => simpa [List.filterMap_cons, h] using ih

/-- C1 (amended): the offset of each surviving block equals the sum of the
stored per-block values (`int(subres.max()) + 1`, the maximum local id plus
one) of all blocks processed before it in block-id order, with the first
block's offset forced to zero.  On the spec's worked example — block 0 with
maximum local id 2 (stored value 3), block 1 absent, block 2 with maximum
local id 4 (stored value 5) — the surviving blocks are `[0, 2]` with
offsets `[0, 3]`; local id 2 in block 0 (node 6) maps to global id 2 and
local id 4 in block 2 (node 11) maps to global id 7. -/
theorem C1_offsets_rolled_cumsum :
    (∀ (vals : List Nat) (i : Nat), i < vals.length →
      (computeOffsets vals).getD i 0 = (vals.take i).sum) ∧
    (readSubresults specExampleBlocks none).1 = [0, 2] ∧
    computeOffsets [3, 5] = [0, 3] ∧
    dictLookup ((readSubresults specExampleBlocks none).2.getD 0 []) 6 = some 2 ∧
    dictLookup ((readSubresults specExampleBlocks none).2.getD 1 []) 11 = some 7 := by
  refine ⟨computeOffsets_getD, ?_, ?_, ?_, ?_⟩ <;> decide

/-- Witness for `C1_offsets_rolled_cumsum` at the concrete value list
`[3, 5]` and index 1. -/
theorem C1_offsets_rolled_cumsum_witness :
    1 < ([3, 5] : List Nat).length ∧
    (computeOffsets [3, 5]).getD 1 0 = (([3, 5] : List Nat).take 1).sum :=
  ⟨by decide, C1_offsets_rolled_cumsum.1 [3, 5] 1 (by decide)⟩

/-- C1 as literally stated is false on the code: offsets add the stored
value `int(subres.max()) + 1`, not the maximum local id itself.  Concretely,
block 0 stores result ids `[0, 1, 2, 3]` with maximum local id 3, so the
claim says block 1's offset is 3 and its local id 1 (node 9) maps to
`1 + 3 = 4`; the code gives offset `3 + 1 = 4` and maps node 9 to 5. -/
theorem C1_sum_of_maxima_counterexample :
    listMax [0, 1, 2, 3] = 3 ∧
    (readSubresults maximaCexBlocks none).1 = [0, 1] ∧
    dictLookup ((readSubresults maximaCexBlocks none).2.getD 1 []) 9 = some 5 ∧
    some (1 + 3) ≠ some 5 := by
  refine ⟨?_, ?_, ?_, ?_⟩ <;> decide

/-- C6: in every per-block remap dictionary produced by
`_read_subresults`, whatever the blocks, offsets and externally supplied
relabeling, a lookup of local id 0 either finds no entry or finds the value
0; the key 0 is never bound to a non-zero value. -/
theorem C6_zero_maps_to_zero (blocks : List (Nat × Option SubResult))
    (relabelOpt : Option (Nat → Nat)) (d : List (Nat × Nat))
    (hd : d ∈ (readSubresults blocks relabelOpt).2) :
    dictLookup d 0 = none ∨ dictLookup d 0 = some 0 := by
  simp only [readSubresults] at hd
  rcases relabelOpt with _ | lab
  · obtain ⟨ns, rs, hdd⟩ := exists_of_mem_zipWith hd
    subst hdd
    exact dict_zero_lookup ns rs
  · obtain ⟨ns, rs, hdd⟩ := exists_of_mem_zipWith hd
    subst hdd
    exact dict_zero_lookup ns rs

/-- Witness for `C6_zero_maps_to_zero` at the spec's worked example: the
first produced dictionary is `[(0, 0), (5, 1), (6, 2)]`. -/
theorem C6_zero_maps_to_zero_witness :
    dictLookup [(0, 0), (5, 1), (6, 2)] 0 = none ∨
    dictLookup [(0, 0), (5, 1), (6, 2)] 0 = some 0 :=
  C6_zero_maps_to_zero specExampleBlocks none [(0, 0), (5, 1), (6, 2)] (by decide)

/-- C7: a block whose stored sub-result is absent is transparent to global
ID unification — removing it from the input changes nothing (in particular
every later block's offset is unchanged, i.e. the absent block contributes
a zero offset), the returned block list keeps exactly the blocks with a
present sub-result, and the write phase, which zips the returned block list
with the returned dictionaries, contains no write for the absent block. -/
theorem C7_absent_block_transparent (xs ys : List (Nat × Option SubResult))
    (bid : Nat) (relabelOpt : Option (Nat → Nat)) :
    readSubresults (xs ++ (bid, none) :: ys) relabelOpt =
      readSubresults (xs ++ ys) relabelOpt ∧
    (readSubresults (xs ++ (bid, none) :: ys) relabelOpt).1 =
      ((xs ++ (bid, none) :: ys).filter (fun p => p.2.isSome)).map (·.1) ∧
    writePhase (readSubresults (xs ++ (bid, none) :: ys) relabelOpt).1
        (readSubresults (xs ++ (bid, none) :: ys) relabelOpt).2 =
      writePhase (readSubresults (xs ++ ys) relabelOpt).1
        (readSubresults (xs ++ ys) relabelOpt).2 := by
  have hkey : readSubresults (xs ++ (bid, none) :: ys) relabelOpt =
      readSubresults (xs ++ ys) relabelOpt := by
    simp [readSubresults, List.filterMap_append, List.filterMap_cons]
  exact ⟨hkey, readSubresults_blockList _ _, by rw [hkey]⟩

end SubSolutions

namespace MultiscaleInference

/-- Helper: python floor division `//` by a positive divisor agrees with
the `Int` division used in the embedding. -/
theorem ediv_eq_floorQ (a b : Int) (hb : 0 < b) :
    (⌊(a : ℚ) / (b : ℚ)⌋ : Int) = a / b := by
  obtain ⟨n, rfl⟩ : ∃ n : Nat, b = (n : Int) :=
    ⟨b.toNat, (Int.toNat_of_nonneg hb.le).symm⟩
  exact Rat.floor_intCast_div_natCast a n

/-- Helper: the clamped read start of `_load_input` is, unconditionally,
the coarse window start clamped below at 0 in each dimension (when the
clamping branch is not taken, every start is already nonnegative). -/
theorem lig_start (shape offset blockShape halo scaleFactor scaleHalo : Vec3) :
    (loadInputGeom shape offset blockShape halo scaleFactor scaleHalo).start =
      (coarseWindow offset blockShape halo scaleFactor scaleHalo).1.map
        (fun s => max 0 s) := by
  set w := coarseWindow offset blockShape halo scaleFactor scaleHalo with hw
  simp only [loadInputGeom, ← hw]
  split_ifs <;> ext <;> simp [Vec3.map] <;> omega

/-- Helper: the left padding of `_load_input` is, unconditionally, the
negative part of the coarse window start in each dimension. -/
theorem lig_padLeft (shape offset blockShape halo scaleFactor scaleHalo : Vec3) :
    (loadInputGeom shape offset blockShape halo scaleFactor scaleHalo).padLeft =
      (coarseWindow offset blockShape halo scaleFactor scaleHalo).1.map
        (fun s => max 0 (-s)) := by
  set w := coarseWindow offset blockShape halo scaleFactor scaleHalo with hw
  simp only [loadInputGeom, ← hw]
  split_ifs <;> ext <;> simp [Vec3.map] <;> omega

/-- Helper: the clamped read stop of `_load_input` is, unconditionally, the
coarse window stop clamped above at the volume shape in each dimension. -/
theorem lig_stop (shape offset blockShape halo scaleFactor scaleHalo : Vec3) :
    (loadInputGeom shape offset blockShape halo scaleFactor scaleHalo).stop =
      Vec3.map2 (fun st sp => min sp st)
        (coarseWindow offset blockShape halo scaleFactor scaleHalo).2 shape := by
  set w := coarseWindow offset blockShape halo scaleFactor scaleHalo with hw
  simp only [loadInputGeom, ← hw]
  split_ifs <;> ext <;> simp [Vec3.map, Vec3.map2] <;> omega

/-- Helper: the right padding of `_load_input` is, unconditionally, the
excess of the coarse window stop over the volume shape in each
dimension. -/
theorem lig_padRight (shape offset blockShape halo scaleFactor scaleHalo : Vec3) :
    (loadInputGeom shape offset blockShape halo scaleFactor scaleHalo).padRight =
      Vec3.map2 (fun st sp => max 0 (st - sp))
        (coarseWindow offset blockShape halo scaleFactor scaleHalo).2 shape := by
  set w := coarseWindow offset blockShape halo scaleFactor scaleHalo with hw
  simp only [loadInputGeom, ← hw]
  split_ifs <;> ext <;> simp [Vec3.map, Vec3.map2] <;> omega

/-- C3: at the finest scale (scale factor 1, scale halo 0, where the coarse
window is exactly `[begin - h, begin + blockShape + h)`), for every halo
with nonnegative entries: if the expanded region lies fully inside
`[0, shape)` the read region is exactly `h` larger on each side with zero
padding; in general the read region is clamped to `[0, shape)`, the
per-side padding amounts are exactly the clamped deficits, and the array
returned after padding always has the originally requested expanded shape
`blockShape + 2 * h` in each dimension. -/
theorem C3_halo_expansion (shape offset blockShape halo : Vec3)
    (_hh : 0 ≤ halo.x ∧ 0 ≤ halo.y ∧ 0 ≤ halo.z) :
    ((0 ≤ offset.x - halo.x ∧ 0 ≤ offset.y - halo.y ∧ 0 ≤ offset.z - halo.z ∧
      offset.x + blockShape.x + halo.x ≤ shape.x ∧
      offset.y + blockShape.y + halo.y ≤ shape.y ∧
      offset.z + blockShape.z + halo.z ≤ shape.z) →
      loadInputGeom shape offset blockShape halo ⟨1, 1, 1⟩ ⟨0, 0, 0⟩ =
        { start := offset - halo, stop := offset + blockShape + halo,
          padLeft := ⟨0, 0, 0⟩, padRight := ⟨0, 0, 0⟩ }) ∧
    (loadInputGeom shape offset blockShape halo ⟨1, 1, 1⟩ ⟨0, 0, 0⟩).start =
      ⟨max 0 (offset.x - halo.x), max 0 (offset.y - halo.y),
       max 0 (offset.z - halo.z)⟩ ∧
    (loadInputGeom shape offset blockShape halo ⟨1, 1, 1⟩ ⟨0, 0, 0⟩).stop =
      ⟨min shape.x (offset.x + blockShape.x + halo.x),
       min shape.y (offset.y + blockShape.y + halo.y),
       min shape.z (offset.z + blockShape.z + halo.z)⟩ ∧
    (loadInputGeom shape offset blockShape halo ⟨1, 1, 1⟩ ⟨0, 0, 0⟩).padLeft =
      ⟨max 0 (halo.x - offset.x), max 0 (halo.y - offset.y),
       max 0 (halo.z - offset.z)⟩ ∧
    (loadInputGeom shape offset blockShape halo ⟨1, 1, 1⟩ ⟨0, 0, 0⟩).padRight =
      ⟨max 0 (offset.x + blockShape.x + halo.x - shape.x),
       max 0 (offset.y + blockShape.y + halo.y - shape.y),
       max 0 (offset.z + blockShape.z + halo.z - shape.z)⟩ ∧
    loadedShape (loadInputGeom shape offset blockShape halo ⟨1, 1, 1⟩ ⟨0, 0, 0⟩) =
      blockShape + halo + halo := by
  have hs := lig_start shape offset blockShape halo ⟨1, 1, 1⟩ ⟨0, 0, 0⟩
  have ht := lig_stop shape offset blockShape halo ⟨1, 1, 1⟩ ⟨0, 0, 0⟩
  have hl := lig_padLeft shape offset blockShape halo ⟨1, 1, 1⟩ ⟨0, 0, 0⟩
  have hr := lig_padRight shape offset blockShape halo ⟨1, 1, 1⟩ ⟨0, 0, 0⟩
  simp only [coarseWindow, Vec3.map, Vec3.map2, Vec3.add_def, Vec3.sub_def]
    at hs ht hl hr
  refine ⟨fun hin => ?_, ?_, ?_, ?_, ?_, ?_⟩
  · ext <;> simp only [hs, ht, hl, hr, loadedShape, Vec3.add_def, Vec3.sub_def]
      <;> omega
  · rw [hs]; ext <;> simp
  · rw [ht]; ext <;> simp
  · rw [hl]; ext <;> simp
  · rw [hr]; ext <;> simp
  · simp only [loadedShape, hs, ht, hl, hr, Vec3.add_def, Vec3.sub_def]
    ext <;> simp <;> omega

/-- Witness for `C3_halo_expansion` at shape `(10,10,10)`, block offset
`(2,3,4)`, block shape `(4,4,4)` and halo `(1,1,1)` (an interior block). -/
theorem C3_halo_expansion_witness :
    (0 ≤ (1 : Int) ∧ 0 ≤ (1 : Int) ∧ 0 ≤ (1 : Int)) ∧
    (((0 ≤ (2 : Int) - 1 ∧ 0 ≤ (3 : Int) - 1 ∧ 0 ≤ (4 : Int) - 1 ∧
      (2 : Int) + 4 + 1 ≤ 10 ∧ (3 : Int) + 4 + 1 ≤ 10 ∧
      (4 : Int) + 4 + 1 ≤ 10) →
      loadInputGeom ⟨10, 10, 10⟩ ⟨2, 3, 4⟩ ⟨4, 4, 4⟩ ⟨1, 1, 1⟩ ⟨1, 1, 1⟩ ⟨0, 0, 0⟩ =
        { start := (⟨2, 3, 4⟩ : Vec3) - ⟨1, 1, 1⟩,
          stop := (⟨2, 3, 4⟩ : Vec3) + ⟨4, 4, 4⟩ + ⟨1, 1, 1⟩,
          padLeft := ⟨0, 0, 0⟩, padRight := ⟨0, 0, 0⟩ }) ∧
    (loadInputGeom ⟨10, 10, 10⟩ ⟨2, 3, 4⟩ ⟨4, 4, 4⟩ ⟨1, 1, 1⟩ ⟨1, 1, 1⟩ ⟨0, 0, 0⟩).start =
      ⟨max 0 ((2 : Int) - 1), max 0 ((3 : Int) - 1), max 0 ((4 : Int) - 1)⟩ ∧
    (loadInputGeom ⟨10, 10, 10⟩ ⟨2, 3, 4⟩ ⟨4, 4, 4⟩ ⟨1, 1, 1⟩ ⟨1, 1, 1⟩ ⟨0, 0, 0⟩).stop =
      ⟨min 10 ((2 : Int) + 4 + 1), min 10 ((3 : Int) + 4 + 1),
       min 10 ((4 : Int) + 4 + 1)⟩ ∧
    (loadInputGeom ⟨10, 10, 10⟩ ⟨2, 3, 4⟩ ⟨4, 4, 4⟩ ⟨1, 1, 1⟩ ⟨1, 1, 1⟩ ⟨0, 0, 0⟩).padLeft =
      ⟨max 0 ((1 : Int) - 2), max 0 ((1 : Int) - 3), max 0 ((1 : Int) - 4)⟩ ∧
    (loadInputGeom ⟨10, 10, 10⟩ ⟨2, 3, 4⟩ ⟨4, 4, 4⟩ ⟨1, 1, 1⟩ ⟨1, 1, 1⟩ ⟨0, 0, 0⟩).padRight =
      ⟨max 0 ((2 : Int) + 4 + 1 - 10), max 0 ((3 : Int) + 4 + 1 - 10),
       max 0 ((4 : Int) + 4 + 1 - 10)⟩ ∧
    loadedShape
        (loadInputGeom ⟨10, 10, 10⟩ ⟨2, 3, 4⟩ ⟨4, 4, 4⟩ ⟨1, 1, 1⟩ ⟨1, 1, 1⟩ ⟨0, 0, 0⟩) =
      (⟨4, 4, 4⟩ : Vec3) + ⟨1, 1, 1⟩ + ⟨1, 1, 1⟩) :=
  ⟨by decide,
   C3_halo_expansion ⟨10, 10, 10⟩ ⟨2, 3, 4⟩ ⟨4, 4, 4⟩ ⟨1, 1, 1⟩ (by decide)⟩

/-- C4: for positive scale factors, the coarse read window of `_load_input`
is obtained by dividing block offset, block shape and halo by the scale
factor with floor semantics and then applying the scale-specific halo, so
it begins at `floor(blockBegin / sf) - floor(h / sf) - sh` and ends at
`floor(blockBegin / sf) + floor(blockShape / sf) + floor(h / sf) + sh` in
each dimension. -/
theorem C4_coarse_window_floor (offset blockShape halo scaleFactor scaleHalo : Vec3)
    (hx : 0 < scaleFactor.x) (hy : 0 < scaleFactor.y) (hz : 0 < scaleFactor.z) :
    (coarseWindow offset blockShape halo scaleFactor scaleHalo).1 =
      ⟨⌊(offset.x : ℚ) / (scaleFactor.x : ℚ)⌋ -
         ⌊(halo.x : ℚ) / (scaleFactor.x : ℚ)⌋ - scaleHalo.x,
       ⌊(offset.y : ℚ) / (scaleFactor.y : ℚ)⌋ -
         ⌊(halo.y : ℚ) / (scaleFactor.y : ℚ)⌋ - scaleHalo.y,
       ⌊(offset.z : ℚ) / (scaleFactor.z : ℚ)⌋ -
         ⌊(halo.z : ℚ) / (scaleFactor.z : ℚ)⌋ - scaleHalo.z⟩ ∧
    (coarseWindow offset blockShape halo scaleFactor scaleHalo).2 =
      ⟨⌊(offset.x : ℚ) / (scaleFactor.x : ℚ)⌋ +
         ⌊(blockShape.x : ℚ) / (scaleFactor.x : ℚ)⌋ +
         ⌊(halo.x : ℚ) / (scaleFactor.x : ℚ)⌋ + scaleHalo.x,
       ⌊(offset.y : ℚ) / (scaleFactor.y : ℚ)⌋ +
         ⌊(blockShape.y : ℚ) / (scaleFactor.y : ℚ)⌋ +
         ⌊(halo.y : ℚ) / (scaleFactor.y : ℚ)⌋ + scaleHalo.y,
       ⌊(offset.z : ℚ) / (scaleFactor.z : ℚ)⌋ +
         ⌊(blockShape.z : ℚ) / (scaleFactor.z : ℚ)⌋ +
         ⌊(halo.z : ℚ) / (scaleFactor.z : ℚ)⌋ + scaleHalo.z⟩ := by
  rw [ediv_eq_floorQ offset.x _ hx, ediv_eq_floorQ offset.y _ hy,
      ediv_eq_floorQ offset.z _ hz, ediv_eq_floorQ halo.x _ hx,
      ediv_eq_floorQ halo.y _ hy, ediv_eq_floorQ halo.z _ hz,
      ediv_eq_floorQ blockShape.x _ hx, ediv_eq_floorQ blockShape.y _ hy,
      ediv_eq_floorQ blockShape.z _ hz]
  exact ⟨rfl, rfl⟩

/-- Witness for `C4_coarse_window_floor` at offset `(7,8,9)`, block shape
`(10,11,12)`, halo `(4,5,6)`, scale factor `(2,2,3)` and scale halo
`(1,1,1)`. -/
theorem C4_coarse_window_floor_witness :
    0 < (2 : Int) ∧ 0 < (2 : Int) ∧ 0 < (3 : Int) ∧
    ((coarseWindow ⟨7, 8, 9⟩ ⟨10, 11, 12⟩ ⟨4, 5, 6⟩ ⟨2, 2, 3⟩ ⟨1, 1, 1⟩).1 =
      ⟨⌊(7 : ℚ) / (2 : ℚ)⌋ - ⌊(4 : ℚ) / (2 : ℚ)⌋ - 1,
       ⌊(8 : ℚ) / (2 : ℚ)⌋ - ⌊(5 : ℚ) / (2 : ℚ)⌋ - 1,
       ⌊(9 : ℚ) / (3 : ℚ)⌋ - ⌊(6 : ℚ) / (3 : ℚ)⌋ - 1⟩ ∧
    (coarseWindow ⟨7, 8, 9⟩ ⟨10, 11, 12⟩ ⟨4, 5, 6⟩ ⟨2, 2, 3⟩ ⟨1, 1, 1⟩).2 =
      ⟨⌊(7 : ℚ) / (2 : ℚ)⌋ + ⌊(10 : ℚ) / (2 : ℚ)⌋ + ⌊(4 : ℚ) / (2 : ℚ)⌋ + 1,
       ⌊(8 : ℚ) / (2 : ℚ)⌋ + ⌊(11 : ℚ) / (2 : ℚ)⌋ + ⌊(5 : ℚ) / (2 : ℚ)⌋ + 1,
       ⌊(9 : ℚ) / (3 : ℚ)⌋ + ⌊(12 : ℚ) / (3 : ℚ)⌋ + ⌊(6 : ℚ) / (3 : ℚ)⌋ + 1⟩) :=
  ⟨by decide, by decide, by decide,
   C4_coarse_window_floor ⟨7, 8, 9⟩ ⟨10, 11, 12⟩ ⟨4, 5, 6⟩ ⟨2, 2, 3⟩ ⟨1, 1, 1⟩
     (by decide) (by decide) (by decide)⟩

/-- C2 is false in its recording part: the code has no distinct `Skipped`
record.  For a concrete block whose mask region is entirely `False`, the
pipeline writes nothing, yet `log2` records the block with
`fu.log_block_success` — exactly the same success marker a successfully
computed and written block receives (`multiscale_inference.py`
lines 333–336 run for every block that reaches the end of the chain). -/
theorem C2_skipped_marker_counterexample :
    (runBlock (some [false, false]) okLoad okStep okStep okWrite).writes = [] ∧
    (runBlock (some [false, false]) okLoad okStep okStep okWrite).predictInvoked
      = false ∧
    (runBlock (some [false, false]) okLoad okStep okStep okWrite).successLogged
      = true ∧
    (runBlock (some [false, false]) okLoad okStep okStep okWrite).successLogged =
      (runBlock none okLoad okStep okStep okWrite).successLogged :=
  ⟨rfl, rfl, rfl, rfl⟩

/-- C2 (amended): a block whose configured mask region is entirely `False`
short-circuits — the inputs are never loaded, the preprocess, compute and
write stages are never invoked, nothing is written — and the block is
recorded with the same block-success marker as a successfully processed
block (there is no distinct `Skipped` record), which is precisely why stage
completion treats it as satisfied and does not retry it. -/
theorem C2_masked_block_short_circuit {D W : Type} (maskRegion : Option (List Bool))
    (loadFn : Unit → Except Unit D) (prepFn : D → Except Unit D)
    (predictFn : D → Except Unit D) (writeFn : D → Except Unit (List W))
    (hm : maskedOut maskRegion = true) :
    runBlock maskRegion loadFn prepFn predictFn writeFn =
      { inputLoaded := false, preprocessInvoked := false, predictInvoked := false,
        writes := [], successLogged := true, failed := false,
        events := [Stage.mark] } ∧
    blockSatisfied (runBlock maskRegion loadFn prepFn predictFn writeFn) = true ∧
    needsRetry (runBlock maskRegion loadFn prepFn predictFn writeFn) = false := by
  simp [runBlock, hm, blockSatisfied, needsRetry]

/-- Witness for `C2_masked_block_short_circuit` at the mask region
`[False, False]` and all-succeeding stages. -/
theorem C2_masked_block_short_circuit_witness :
    runBlock (some [false, false]) okLoad okStep okStep okWrite =
      { inputLoaded := false, preprocessInvoked := false, predictInvoked := false,
        writes := ([] : List Nat), successLogged := true, failed := false,
        events := [Stage.mark] } ∧
    blockSatisfied (runBlock (some [false, false]) okLoad okStep okStep okWrite)
      = true ∧
    needsRetry (runBlock (some [false, false]) okLoad okStep okStep okWrite)
      = false :=
  C2_masked_block_short_circuit (some [false, false]) okLoad okStep okStep okWrite
    (by decide)

/-- C5: for a block that is not skipped by the mask, the success marker is
recorded exactly when every stage (including the write) returned without
error, in which case the events are precisely
`load, preprocess, compute, write, mark` in this strict order — the marker
comes only after the write; a failure at any stage leaves no success
marker, records no mark event and no write, and the executed events are a
proper initial segment of the five-stage order. -/
theorem C5_marker_only_after_write {D W : Type} (maskRegion : Option (List Bool))
    (loadFn : Unit → Except Unit D) (prepFn : D → Except Unit D)
    (predictFn : D → Except Unit D) (writeFn : D → Except Unit (List W))
    (hm : maskedOut maskRegion = false) :
    ((runBlock maskRegion loadFn prepFn predictFn writeFn).successLogged = true ↔
      (runBlock maskRegion loadFn prepFn predictFn writeFn).failed = false ∧
      (runBlock maskRegion loadFn prepFn predictFn writeFn).events =
        [Stage.load, Stage.preprocessStage, Stage.compute, Stage.write,
         Stage.mark]) ∧
    ((runBlock maskRegion loadFn prepFn predictFn writeFn).failed = true →
      (runBlock maskRegion loadFn prepFn predictFn writeFn).successLogged = false ∧
      Stage.mark ∉ (runBlock maskRegion loadFn prepFn predictFn writeFn).events ∧
      (runBlock maskRegion loadFn prepFn predictFn writeFn).writes = [] ∧
      (runBlock maskRegion loadFn prepFn predictFn writeFn).events ∈
        [[Stage.load], [Stage.load, Stage.preprocessStage],
         [Stage.load, Stage.preprocessStage, Stage.compute],
         [Stage.load, Stage.preprocessStage, Stage.compute, Stage.write]]) := by
  simp only [runBlock, hm, Bool.false_eq_true, if_false]
  cases hL : loadFn () with
  | error e => simp [hL]
  | ok d =>
    cases hp : prepFn d with
    | error e => simp [hL, hp]
    | ok d2 =>
      cases hq : predictFn d2 with
      | error e => simp [hL, hp, hq]
      | ok d3 =>
        cases hw : writeFn d3 with
        | error e => simp [hL, hp, hq, hw]
        | ok ws => simp [hL, hp, hq, hw]

/-- Witness for `C5_marker_only_after_write` with no mask and
all-succeeding stages. -/
theorem C5_marker_only_after_write_witness :
    ((runBlock none okLoad okStep okStep okWrite).successLogged = true ↔
      (runBlock none okLoad okStep okStep okWrite).failed = false ∧
      (runBlock none okLoad okStep okStep okWrite).events =
        [Stage.load, Stage.preprocessStage, Stage.compute, Stage.write,
         Stage.mark]) ∧
    ((runBlock none okLoad okStep okStep okWrite).failed = true →
      (runBlock none okLoad okStep okStep okWrite).successLogged = false ∧
      Stage.mark ∉ (runBlock none okLoad okStep okStep okWrite).events ∧
      (runBlock none okLoad okStep okStep okWrite).writes = [] ∧
      (runBlock none okLoad okStep okStep okWrite).events ∈
        [[Stage.load], [Stage.load, Stage.preprocessStage],
         [Stage.load, Stage.preprocessStage, Stage.compute],
         [Stage.load, Stage.preprocessStage, Stage.compute, Stage.write]]) :=
  C5_marker_only_after_write none okLoad okStep okStep okWrite (by decide)

end MultiscaleInference

namespace Frameworks

/-- C8: when the predictor produces a list of prediction arrays but the
configured halo is not multiscale (the single-output configuration), the
first array of the list is selected and halo-cropped as the sole result —
exactly as if it had been the only prediction — and the whole downstream
write, which serves every declared output dataset from that one array,
is unchanged by the discarded remaining arrays. -/
theorem C8_single_array_serves_all_outputs (a : NArr) (rest : List NArr)
    (h : Nat × Nat × Nat) (blockShape actualShape : Nat × Nat × Nat)
    (dss : List DsInfo) (accumulation : Option (List Arr3 → Arr3))
    (castFn : Option (NArr → NArr)) :
    pytorchCall (ModelOut.tensors (a :: rest)) (HaloSpec.flat h) =
      some (ModelOut.tensor (a.crop h)) ∧
    predictAndWrite (ModelOut.tensors (a :: rest)) (HaloSpec.flat h)
        blockShape actualShape dss accumulation castFn =
      predictAndWrite (ModelOut.tensor a) (HaloSpec.flat h)
        blockShape actualShape dss accumulation castFn :=
  ⟨rfl, rfl⟩

/-- C9: with no explicit mean/std supplied and the default configuration
(zero-mean/unit-variance, `filter_zeros = True`, `eps = 1e-4`), the torch
preprocessor computes the mean and the standard deviation over only the
non-zero entries of the input and applies `(data - mean) / (std + eps)` to
every entry; the preprocessor is a pure function of its input. -/
theorem C9_normalize_nonzero_statistics (sqrtFn : ℚ → ℚ) (data : List ℚ) :
    preprocessTorch sqrtFn none none true (TorchData.arr data) =
      TorchData.arr (data.map (fun x =>
        (x - (data.filter (fun v => v ≠ 0)).sum /
            ((data.filter (fun v => v ≠ 0)).length : ℚ)) /
        (sqrtFn (((data.filter (fun v => v ≠ 0)).map (fun y =>
            (y - (data.filter (fun v => v ≠ 0)).sum /
              ((data.filter (fun v => v ≠ 0)).length : ℚ)) ^ 2)).sum /
            ((data.filter (fun v => v ≠ 0)).length : ℚ)) + 1 / 10000))) := by
  simp only [preprocessTorch, castF32, normalize, listVarQ, listMeanQ,
    List.length_map, if_true]

end Frameworks

namespace BackgroundSizeFilter

/-- Helper: replacing the members of an id set by zero is the identity on a
list that contains no member of the set. -/
theorem map_discard_eq_self (labels discardIds : List Nat)
    (h : ∀ v ∈ labels, v ∉ discardIds) :
    labels.map (fun v => if v ∈ discardIds then 0 else v) = labels := by
  induction labels with
  | nil => rfl
  | cons a t ih =>
    have ha : a ∉ discardIds := h a (List.mem_cons_self a t)
    simp only [List.map_cons, if_neg ha,
      ih (fun v hv => h v (List.mem_cons_of_mem a hv))]

/-- C10: `apply_block` always logs the block as successful and skips the
write exactly when the wrapped `uint64` sum `np.sum(labels)` is zero —
which is NOT the same as all labels being zero, although the source's own
comment on line 116 ("check if everything is ignore label") states that
intent.  The first conjunct characterises the code: nothing is written when
the wrapped sum is zero, otherwise the region is written as the input
labels with every label in the discard-id set replaced by `0` and every
other label unchanged (the discard-mask-empty shortcut writes the labels
verbatim, which coincides with the replacement map).  The remaining
conjuncts evaluate the code at the failing input: a block holding the two
labels `2 ^ 63, 2 ^ 63` sums to `2 ^ 64 ≡ 0 (mod 2 ^ 64)`, so the block is
logged as successful and nothing is written even though its labels are not
all zero, contradicting the claim (and the code's comment). -/
theorem C10_wrapped_sum_skips_nonzero_block :
    (∀ (labels discardIds : List Nat),
      applyBlock labels discardIds =
        ((if labels.sum % 2 ^ 64 = 0 then none
          else some (labels.map (fun v => if v ∈ discardIds then 0 else v))),
         true)) ∧
    applyBlock [2 ^ 63, 2 ^ 63] [] = (none, true) ∧
    ¬ ∀ v ∈ ([2 ^ 63, 2 ^ 63] : List Nat), v = 0 := by
  refine ⟨?_, by decide, by decide⟩
  intro labels discardIds
  unfold applyBlock
  by_cases hs : labels.sum % 2 ^ 64 = 0
  · rw [if_pos hs, if_pos hs]
  · simp only [if_neg hs]
    by_cases hc : (labels.map (fun v => decide (v ∈ discardIds))).count true = 0
    · have hnone : ∀ v ∈ labels, v ∉ discardIds := by
        intro v hv hmem
        have hmm : true ∈ labels.map (fun v => decide (v ∈ discardIds)) :=
          List.mem_map.mpr ⟨v, hv, by simp [hmem]⟩
        exact absurd hmm (List.count_eq_zero.mp hc)
      simp [hc, map_discard_eq_self labels discardIds hnone]
    · simp only [if_neg hc]
      congr 1
      congr 1
      rw [List.zipWith_map_right, List.zipWith_same]
      simp

end BackgroundSizeFilter

end ClusterTools
